import Mathlib

/-!
Verification of the nested-collection identity/mutation model and the media
ingestion pipeline of the portfolio backend (`backend/app`).

The document store is modelled shallowly: a BSON-like scalar type `BVal`,
documents as association lists with unique keys, and a `Portfolio` holding
the embedded `items` and `sections` arrays plus its modification timestamp.
Each route handler is translated, post identifier validation and portfolio
fetch, as a pure function on `Portfolio`; external collaborators (filesystem,
ffmpeg, OpenCV, PIL) are oracle parameters.
-/

namespace PortfolioApp

/-- A BSON-like scalar value as relevant to this backend: ObjectId (carrying
its canonical hex rendering), string, integer, and null. In MongoDB an
ObjectId never compares equal to a string, which the `BEq` below reflects. -/
inductive BVal where
  | oid (s : String)
  | bstr (s : String)
  | int (n : Int)
  | null
deriving DecidableEq, Repr

/-- A stored sub-document: an association list of field name to value.
Handlers only read/write first occurrences, matching unique-key documents. -/
abbrev Doc := List (String × BVal)

/-- `d.get(k)` on a document: first binding of key `k`, if any. -/
def getField (d : Doc) (k : String) : Option BVal :=
  (d.find? (fun kv => kv.1 == k)).map (fun kv => kv.2)

/-- Mongo `$set` of field `k` to `v` on a sub-document: replace the binding
if the key exists, otherwise append it. -/
def setField (d : Doc) (k : String) (v : BVal) : Doc :=
  if d.any (fun kv => kv.1 == k) then
    d.map (fun kv => if kv.1 == k then (k, v) else kv)
  else d ++ [(k, v)]

/-- Mongo `$unset` of field `k`: drop every binding of the key. -/
def unsetField (d : Doc) (k : String) : Doc :=
  d.filter (fun kv => kv.1 != k)

/-- Python truthiness of a stored value (`ObjectId` is always truthy, a
string iff nonempty, an int iff nonzero, `None`/null is falsy). -/
def truthy : BVal → Bool
  | .oid _ => true
  | .bstr s => !s.isEmpty
  | .int n => n != 0
  | .null => false

/-- Python `str(...)` rendering of an optional stored value; `str(None)`
is the literal string `"None"`. -/
def pyStrOpt : Option BVal → String
  | none => "None"
  | some (.oid s) => s
  | some (.bstr s) => s
  | some (.int n) => toString n
  | some .null => "None"

/-- `item.get("_id") or item.get("id")`: the `_id` value when present and
truthy, otherwise the `id` value (BSON null behaves like Python `None`). -/
def pyGetOr (item : Doc) : Option BVal :=
  match getField item "_id" with
  | some v => if truthy v then some v else getField item "id"
  | none => getField item "id"

/-- `bson.ObjectId.is_valid` restricted to hex encodings: 24 hex digits. -/
def isValidOid (s : String) : Bool :=
  s.length == 24 && s.data.all (fun c => c.isDigit || (('a' ≤ c) && (c ≤ 'f')) || (('A' ≤ c) && (c ≤ 'f'.toUpper)))

/-- The canonical rendering of `ObjectId(s)` for a valid hex input `s`
(ObjectId renders in lowercase hex). -/
def resolveOid (s : String) : String := s.toLower

/-- Equality test of an optional stored value against `ObjectId(h)`:
only an ObjectId with the same rendering compares equal. -/
def beqOid (v : Option BVal) (h : String) : Bool :=
  match v with
  | some (.oid s) => s == h
  | _ => false

/-- The per-item match test of `find_item_by_id` (utils/database.py):
`item_id_field == item_obj_id or str(item_id_field) == item_id`. -/
def findMatch (itemId : String) (item : Doc) : Bool :=
  beqOid (pyGetOr item) (resolveOid itemId) || pyStrOpt (pyGetOr item) == itemId

/-- A portfolio aggregate: embedded item and section arrays plus the
modification timestamp (other scalar fields are irrelevant to the claims). -/
structure Portfolio where
  items : List Doc
  sections : List Doc
  updatedAt : Option Int
deriving DecidableEq, Repr

/-- `find_item_by_id(portfolio, item_id)` (utils/database.py:57): first item
in stored array order whose `_id`-or-`id` field equals the resolved ObjectId
or whose string rendering equals the raw requested string. -/
def find_item_by_id (p : Portfolio) (itemId : String) : Option Doc :=
  p.items.find? (findMatch itemId)

/-- The item-id loop of `update_portfolio_item`/`delete_portfolio_item`
(api/portfolios.py:96-109, 161-173): `str(item.get("_id") or item.get("id"))`
when that value is an ObjectId or truthy, else Python `None`. -/
def itemIdStr (item : Doc) : Option String :=
  match pyGetOr item with
  | some (.oid s) => some s
  | some v => if truthy v then some (pyStrOpt (some v)) else none
  | none => none

/-- Per-item test of those loops: `item_id_str == item_id` (string-only). -/
def matchStr (itemId : String) (item : Doc) : Bool :=
  itemIdStr item == some itemId

/-- The `enumerate` search of `update_portfolio_item` (api/portfolios.py:96):
position and value of the first item matching `matchStr`. -/
def findItemIdx (itemId : String) : List Doc → Option (Nat × Doc)
  | [] => none
  | d :: ds =>
    if matchStr itemId d then some (0, d)
    else (findItemIdx itemId ds).map (fun ix => (ix.1 + 1, ix.2))

/-- Applying the keys of an update dict in iteration order to a document
(each key set via Mongo positional `$set items.i.key`). -/
def applyUpdates (d : Doc) (upd : List (String × BVal)) : Doc :=
  upd.foldl (fun acc kv => setField acc kv.1 kv.2) d

/-- Positional `$set items.i.k` for all submitted keys: rewrite only the
array element at index `i`. -/
def patchNth (upd : List (String × BVal)) : List Doc → Nat → List Doc
  | [], _ => []
  | d :: ds, 0 => applyUpdates d upd :: ds
  | d :: ds, n + 1 => d :: patchNth upd ds n

deriving instance DecidableEq for Except

/-- Error taxonomy of the portfolio routes (HTTP status + detail). -/
inductive ApiError where
  | invalidId
  | portfolioNotFound
  | itemNotFound
  | updatedItemNotFound
  | deletionFailed
deriving DecidableEq, Repr

/-- `update_portfolio_item` (api/portfolios.py:78), after id validation and
portfolio fetch: locate the item positionally by string id, `$set` each
submitted key at that position, then re-fetch and re-locate the item. -/
def update_portfolio_item (p : Portfolio) (itemId : String)
    (upd : List (String × BVal)) : Except ApiError (Portfolio × Doc) :=
  match findItemIdx itemId p.items with
  | none => .error .itemNotFound
  | some ix =>
    let p2 : Portfolio := { p with items := patchNth upd p.items ix.1 }
    match p2.items.find? (matchStr itemId) with
    | some item => .ok (p2, item)
    | none => .error .updatedItemNotFound

/-- The `$pull` predicate of `delete_portfolio_item` (api/portfolios.py:184):
`$or` of `_id`/`id` equal to `ObjectId(item_id)` or to the raw string. -/
def pullMatch (itemId : String) (item : Doc) : Bool :=
  getField item "_id" == some (.oid (resolveOid itemId)) ||
  getField item "id" == some (.oid (resolveOid itemId)) ||
  getField item "_id" == some (.bstr itemId) ||
  getField item "id" == some (.bstr itemId)

/-- `delete_portfolio_item` (api/portfolios.py:144), after id validation and
portfolio fetch: locate the pre-removal item snapshot, `$pull` matching
elements, re-read, fail 500 if the count did not decrease, else report the
snapshot and the number of items removed. (File cleanup is modelled
separately; it does not affect the returned value.) -/
def delete_portfolio_item (p : Portfolio) (itemId : String) :
    Except ApiError (Portfolio × Doc × Nat) :=
  match p.items.find? (matchStr itemId) with
  | none => .error .itemNotFound
  | some itemToDelete =>
    let remaining := p.items.filter (fun it => !pullMatch itemId it)
    if remaining.length ≥ p.items.length then .error .deletionFailed
    else .ok ({ p with items := remaining }, itemToDelete,
              p.items.length - remaining.length)

/-- `create_portfolio_item` (api/portfolios.py:55), after validation and
portfolio fetch: `$push` the serialized item onto the items array. -/
def create_portfolio_item (p : Portfolio) (itemDoc : Doc) : Portfolio :=
  { p with items := p.items ++ [itemDoc] }

/-- `remove_item_from_portfolio` (utils/database.py:128): `$pull` by
canonical `_id` ObjectId; if that modified nothing, retry the `$pull` by the
string `id` field; return whether any removal occurred. -/
def remove_item_from_portfolio (p : Portfolio) (itemId : String) :
    Portfolio × Bool :=
  let items1 := p.items.filter
    (fun it => !(getField it "_id" == some (.oid (resolveOid itemId))))
  if items1.length < p.items.length then ({ p with items := items1 }, true)
  else
    let items2 := p.items.filter
      (fun it => !(getField it "id" == some (.bstr itemId)))
    ({ p with items := items2 }, items2.length < p.items.length)

/-- `create_section` (api/portfolios.py:281), after validation and portfolio
fetch: build the section with a fresh ObjectId and `$push` its pydantic
serialization, whose `id` field is the hex string rendering. -/
def create_section (p : Portfolio) (newOidHex : String) (title : String)
    (descr : BVal) (ord : Int) : Portfolio × Doc :=
  let s : Doc := [("id", .bstr newOidHex), ("title", .bstr title),
                  ("description", descr), ("order", .int ord),
                  ("created_at", .null), ("updated_at", .null)]
  ({ p with sections := p.sections ++ [s] }, s)

/-- `list_sections` (api/portfolios.py:305), after validation and portfolio
fetch: the portfolio's sections array. -/
def list_sections (p : Portfolio) : List Doc := p.sections

/-- `delete_section` (api/portfolios.py:348), after validation and portfolio
fetch: `$unset` the `section_id` field of every item whose `section_id`
string-equals the requested id, then `$pull` sections whose `id` field
equals that string. -/
def delete_section (p : Portfolio) (sectionId : String) : Portfolio :=
  let items2 := p.items.map (fun it =>
    if getField it "section_id" == some (.bstr sectionId)
    then unsetField it "section_id" else it)
  let sections2 := p.sections.filter
    (fun s => !(getField s "id" == some (.bstr sectionId)))
  { p with items := items2, sections := sections2 }

/-! ## Media ingestion pipeline (api/upload.py) -/

/-- The declared kind of an uploaded file. -/
inductive FileType where
  | image
  | video
deriving DecidableEq, Repr

/-- `ALLOWED_IMAGES` (api/upload.py:18). -/
def ALLOWED_IMAGES : List String :=
  ["image/jpeg", "image/jpg", "image/png", "image/webp"]

/-- `ALLOWED_VIDEOS` (api/upload.py:19). -/
def ALLOWED_VIDEOS : List String :=
  ["video/mp4", "video/webm", "video/quicktime", "video/x-msvideo",
   "video/mpeg", "application/mp4"]

/-- `MAX_IMAGE_SIZE` (api/upload.py:27): 10 MiB. -/
def MAX_IMAGE_SIZE : Nat := 10 * 1024 * 1024

/-- `MAX_VIDEO_SIZE` (api/upload.py:28): 50 MiB. -/
def MAX_VIDEO_SIZE : Nat := 50 * 1024 * 1024

/-- Upload validation failures (both surface as HTTP 400 with distinct
detail strings: invalid format vs too large). -/
inductive UploadError where
  | unsupportedMediaType
  | payloadTooLarge
deriving DecidableEq, Repr

/-- `ItemMetadata` (models/portfolio.py:33). -/
structure ItemMetadata where
  size : Nat
  dimensions : Option (Nat × Nat)
  duration : Option Nat
  format : String
deriving DecidableEq, Repr

/-- What `cv2.VideoCapture` reports for a video in `get_file_metadata`. -/
structure VideoProbe where
  width : Nat
  height : Nat
  fps : ℚ
  frameCount : Nat
deriving DecidableEq, Repr

/-- `content_type.split("/")[1]` for the content types reaching this point
(all contain a slash). -/
def formatOf (contentType : String) : String :=
  ((contentType.splitOn "/").drop 1).headD ""

/-- `get_file_metadata` (api/upload.py:199): size and format always; image
dimensions from PIL when probing succeeds; video dimensions and whole-second
duration from OpenCV when probing succeeds (probe failure is swallowed and
leaves both absent). -/
def get_file_metadata (ft : FileType) (size : Nat) (contentType : String)
    (imgDims : Option (Nat × Nat)) (vp : Option VideoProbe) : ItemMetadata :=
  match ft with
  | .image => { size := size, dimensions := imgDims, duration := none,
                format := formatOf contentType }
  | .video =>
    match vp with
    | none => { size := size, dimensions := none, duration := none,
                format := formatOf contentType }
    | some v =>
      { size := size, dimensions := some (v.width, v.height),
        duration := some (if 0 < v.fps
                          then (Rat.floor ((v.frameCount : ℚ) / v.fps)).toNat
                          else 0),
        format := formatOf contentType }

/-- Outcome of one ffmpeg frame-extraction attempt: a nonempty thumbnail
file was produced, the command completed but left no usable file, or the
invocation raised. -/
inductive FFOutcome where
  | success
  | emptyFile
  | raised
deriving DecidableEq, Repr

/-- Oracle for the external collaborators of `generate_video_thumbnail`:
whether the stored video file exists, what `ffmpeg.probe` reports for its
duration (`none` models a raised probe, e.g. unparseable duration), the
outcome of an ffmpeg extraction at a given timestamp, and whether the
OpenCV fallback produces a thumbnail. -/
structure ThumbEnv where
  videoExists : Bool
  probeDuration : Option ℚ
  ffmpegAt : ℚ → FFOutcome
  opencvOk : Bool

/-- `os.path.splitext(name)[0]` for the generated `uuid.ext` names. -/
def stripExt (s : String) : String :=
  let parts := s.splitOn "."
  if parts.length ≤ 1 then s else String.intercalate "." parts.dropLast

/-- The thumbnail URL `/uploads/{name}_thumb.jpg`. -/
def thumbUrl (originalFilename : String) : String :=
  "/uploads/" ++ stripExt originalFilename ++ "_thumb.jpg"

/-- `generate_video_thumbnail` (api/upload.py:84): probe the duration and
extract one frame at `min(3.0, duration * 0.1)` scaled to width 300; an
extraction that completes without a usable file falls through to the OpenCV
fallback, while a raised extraction (or a raised probe) first retries the
extraction at timestamp 0; OpenCV is the final fallback, and `None` is
returned only when every attempt fails (or the video file is missing). -/
def generate_video_thumbnail (env : ThumbEnv) (originalFilename : String) :
    Option String :=
  if !env.videoExists then none
  else
    match env.probeDuration with
    | some d =>
      match env.ffmpegAt (min 3 (d * (1 / 10))) with
      | .success => some (thumbUrl originalFilename)
      | .emptyFile =>
        if env.opencvOk then some (thumbUrl originalFilename) else none
      | .raised =>
        match env.ffmpegAt 0 with
        | .success => some (thumbUrl originalFilename)
        | _ => if env.opencvOk then some (thumbUrl originalFilename) else none
    | none =>
      match env.ffmpegAt 0 with
      | .success => some (thumbUrl originalFilename)
      | _ => if env.opencvOk then some (thumbUrl originalFilename) else none

/-- Oracle bundle for one `upload_file` request. -/
structure UploadEnv where
  imgDims : Option (Nat × Nat)
  videoProbe : Option VideoProbe
  thumb : ThumbEnv

/-- The JSON payload returned by a successful upload. -/
structure UploadResult where
  filename : String
  originalName : String
  url : String
  thumbnailUrl : Option String
  metadata : ItemMetadata
deriving DecidableEq, Repr

/-- `file.filename.split(".")[-1] if file.filename else "bin"`. -/
def fileExtension (originalName : String) : String :=
  if originalName.isEmpty then "bin"
  else (originalName.splitOn ".").getLastD ""

/-- `upload_file` (api/upload.py:30): validate the declared content type
against the per-kind allow-list, buffer the content and validate its length
against the per-kind ceiling, store under `{uuid}.{ext}`, derive metadata,
and for videos derive a thumbnail; probe failures never fail the upload. -/
def upload_file (env : UploadEnv) (originalName : String)
    (contentType : String) (ft : FileType) (size : Nat) (uuid : String) :
    Except UploadError UploadResult :=
  if ft = .image ∧ contentType ∉ ALLOWED_IMAGES then
    .error .unsupportedMediaType
  else if ft = .video ∧ contentType ∉ ALLOWED_VIDEOS then
    .error .unsupportedMediaType
  else if ft = .image ∧ size > MAX_IMAGE_SIZE then
    .error .payloadTooLarge
  else if ft = .video ∧ size > MAX_VIDEO_SIZE then
    .error .payloadTooLarge
  else
    let uniqueFilename := uuid ++ "." ++ fileExtension originalName
    let metadata := get_file_metadata ft size contentType env.imgDims
      env.videoProbe
    let thumbnailUrl :=
      if ft = .video then generate_video_thumbnail env.thumb uniqueFilename
      else none
    .ok { filename := uniqueFilename, originalName := originalName,
          url := "/uploads/" ++ uniqueFilename,
          thumbnailUrl := thumbnailUrl, metadata := metadata }

/-! ## Physical file cleanup (utils/file_management.py, api/portfolios.py) -/

/-- The attributes of a `PortfolioItem` that file cleanup reads (an empty
`filename` models a falsy/absent one). -/
structure PItem where
  filename : String
  thumbnailUrl : Option String
deriving DecidableEq, Repr

/-- Filesystem oracle: whether a path exists, and whether `os.remove` on it
raises (permission error and the like). -/
structure FS where
  pathExists : String → Bool
  removeRaises : String → Bool

/-- `thumbnail_url.split("/")[-1]` (utils/file_management.py:25). -/
def lastUrlComponent (url : String) : String :=
  (url.splitOn "/").getLastD ""

/-- The `files_to_remove` list of `cleanup_item_files`
(utils/file_management.py:16-26): the main file when `filename` is truthy,
plus the thumbnail file when `thumbnail_url` is truthy and not an inline
`data:` URL. -/
def filesToRemove (it : PItem) : List String :=
  (if !it.filename.isEmpty then ["uploads/" ++ it.filename] else []) ++
  (match it.thumbnailUrl with
   | some t =>
     if !t.isEmpty && !t.startsWith "data:"
     then ["uploads/" ++ lastUrlComponent t] else []
   | none => [])

/-- The removal loop of `cleanup_item_files` (utils/file_management.py:29):
each path gets its own try/except, so every path is attempted and the
successfully removed ones are exactly the existing, non-raising ones. -/
def tryRemoveEach (fs : FS) (paths : List String) : List String :=
  paths.filter (fun pa => fs.pathExists pa && !fs.removeRaises pa)

/-- `cleanup_item_files(item)` (utils/file_management.py:8), observed as the
list of files it actually removes; it never raises (total function). -/
def cleanup_item_files (fs : FS) (it : PItem) : List String :=
  tryRemoveEach fs (filesToRemove it)

/-- A removal loop whose single surrounding try/except aborts on the first
raising `os.remove`: returns the files removed before the abort. -/
def removeSeqAbort (fs : FS) : List String → List String
  | [] => []
  | pa :: ps =>
    if fs.pathExists pa then
      if fs.removeRaises pa then []
      else pa :: removeSeqAbort fs ps
    else removeSeqAbort fs ps

/-- The per-item paths of `delete_portfolio`'s inline cleanup
(api/portfolios.py:239-251): main file when truthy, and for any truthy
`thumbnail_url` (inline `data:` URLs included) the path obtained by
stripping `/uploads/`. -/
def deletePortfolioPaths (it : PItem) : List String :=
  (if !it.filename.isEmpty then ["uploads/" ++ it.filename] else []) ++
  (match it.thumbnailUrl with
   | some t =>
     if !t.isEmpty then ["uploads/" ++ (t.replace "/uploads/" "")] else []
   | none => [])

/-- `delete_portfolio` (api/portfolios.py:225), after validation and fetch:
run the inline cleanup loop — one try/except around the whole loop — then
delete the portfolio document regardless of cleanup outcomes. Returns the
removed file paths and whether the portfolio was deleted. -/
def delete_portfolio (fs : FS) (items : List PItem) : List String × Bool :=
  (removeSeqAbort fs (items.flatMap deletePortfolioPaths), true)

/-! ## Predicates used to state the claims -/

/-- The locator match as worded by the spec, for the refinement comparison:
(a) canonical-field (`_id`) exact match by resolved identifier equality,
(b) alternate-field (`id`) exact match, (c) string-rendering equality of
whichever identifier field is populated against the raw requested string. -/
def specMatch (raw : String) (item : Doc) : Bool :=
  getField item "_id" == some (.oid (resolveOid raw)) ||
  getField item "id" == some (.oid (resolveOid raw)) ||
  pyStrOpt (pyGetOr item) == raw

/-- The locator as worded by the spec: first child, in stored array order,
matching under any of the three comparisons. -/
def specFind (p : Portfolio) (raw : String) : Option Doc :=
  p.items.find? (specMatch raw)

/-- An item populating at most one identifier field: whenever its `_id` is
present and truthy, its legacy `id` field is absent. Every item the backend
itself writes satisfies this (items are stored with an `id` string only). -/
def singleIdRep (item : Doc) : Bool :=
  match getField item "_id" with
  | some v => !truthy v || (getField item "id").isNone
  | none => true

/-- The two identifier representations the system actually persists:
a canonical `_id` ObjectId (whose rendering is canonical lowercase hex),
or a legacy string `id` field, or no identifier at all. -/
def wellRep (item : Doc) : Bool :=
  match getField item "_id", getField item "id" with
  | some (.oid s), none => isValidOid s && (s.toLower == s)
  | none, some (.bstr _) => true
  | none, none => true
  | _, _ => false

/-- The kind-specific upload size ceiling. -/
def maxSizeFor : FileType → Nat
  | .image => MAX_IMAGE_SIZE
  | .video => MAX_VIDEO_SIZE

/-! ## Basic lemmas about document field access -/

theorem getField_unsetField_self (d : Doc) (k : String) :
    getField (unsetField d k) k = none := by
  induction d with
  | nil => rfl
  | cons a tl ih =>
    rw [unsetField, List.filter_cons]
    by_cases h : a.1 = k
    · simp [h]
      exact ih
    · simp [h]
      rw [getField, List.find?_cons_of_neg]
      · exact ih
      · simp [h]

theorem getField_unsetField_ne (d : Doc) (k k' : String) (h : k' ≠ k) :
    getField (unsetField d k) k' = getField d k' := by
  induction d with
  | nil => rfl
  | cons a tl ih =>
    rw [unsetField, List.filter_cons]
    by_cases ha : a.1 = k
    · rw [if_neg (by simp [ha])]
      have h2 : getField (a :: tl) k' = getField tl k' := by
        rw [getField, List.find?_cons_of_neg _
          (by simp [ha]; exact fun hc => h hc.symm), getField]
      rw [h2]
      exact ih
    · rw [if_pos (by simp [ha])]
      by_cases ha2 : a.1 = k'
      · rw [getField, List.find?_cons_of_pos _ (by simp [ha2]),
            getField, List.find?_cons_of_pos _ (by simp [ha2])]
      · rw [getField, List.find?_cons_of_neg _ (by simp [ha2]),
            getField, List.find?_cons_of_neg _ (by simp [ha2])]
        exact ih

theorem find_setMap_self (d : Doc) (k : String) (v : BVal)
    (hany : d.any (fun kv => kv.1 == k) = true) :
    (d.map (fun kv => if kv.1 == k then (k, v) else kv)).find?
      (fun kv => kv.1 == k) = some (k, v) := by
  induction d with
  | nil => simp at hany
  | cons a tl ih =>
    by_cases ha : a.1 = k
    · rw [List.map_cons, if_pos (by simp [ha])]
      rw [List.find?_cons_of_pos _ (by simp)]
    · rw [List.map_cons, if_neg (by simp [ha])]
      rw [List.find?_cons_of_neg _ (by simp [ha])]
      have htl : tl.any (fun kv => kv.1 == k) = true := by
        rcases List.any_eq_true.mp hany with ⟨x, hx, hxk⟩
        rcases List.mem_cons.mp hx with rfl | hxtl
        · exact absurd (by simpa using hxk) ha
        · exact List.any_eq_true.mpr ⟨x, hxtl, hxk⟩
      exact ih htl

theorem find_setMap_ne (d : Doc) (k : String) (v : BVal) (k' : String)
    (h : k' ≠ k) :
    (d.map (fun kv => if kv.1 == k then (k, v) else kv)).find?
      (fun kv => kv.1 == k') = d.find? (fun kv => kv.1 == k') := by
  induction d with
  | nil => rfl
  | cons a tl ih =>
    by_cases ha : a.1 = k
    · rw [List.map_cons, if_pos (by simp [ha])]
      rw [List.find?_cons_of_neg _ (by simp; exact fun hc => h hc.symm)]
      rw [List.find?_cons_of_neg _
        (by simp [ha]; exact fun hc => h hc.symm)]
      exact ih
    · rw [List.map_cons, if_neg (by simp [ha])]
      by_cases ha2 : a.1 = k'
      · rw [List.find?_cons_of_pos _ (by simp [ha2]),
            List.find?_cons_of_pos _ (by simp [ha2])]
      · rw [List.find?_cons_of_neg _ (by simp [ha2]),
            List.find?_cons_of_neg _ (by simp [ha2])]
        exact ih

theorem getField_setField_self (d : Doc) (k : String) (v : BVal) :
    getField (setField d k v) k = some v := by
  rw [setField]
  by_cases hany : d.any (fun kv => kv.1 == k) = true
  · rw [if_pos hany, getField, find_setMap_self d k v hany]
    rfl
  · rw [if_neg hany, getField, List.find?_append]
    have hnone : d.find? (fun kv => kv.1 == k) = none := by
      rw [List.find?_eq_none]
      intro x hx hxk
      exact hany (List.any_eq_true.mpr ⟨x, hx, hxk⟩)
    simp [hnone]

theorem getField_setField_ne (d : Doc) (k : String) (v : BVal) (k' : String)
    (h : k' ≠ k) : getField (setField d k v) k' = getField d k' := by
  rw [setField]
  by_cases hany : d.any (fun kv => kv.1 == k) = true
  · rw [if_pos hany, getField, find_setMap_ne d k v k' h, getField]
  · rw [if_neg hany, getField, List.find?_append]
    have h1 : List.find? (fun kv => kv.1 == k') [(k, v)] = none := by
      simp
      exact fun hc => h hc.symm
    rw [h1, getField]
    cases d.find? (fun kv => kv.1 == k') <;> rfl

/-! ## Lemmas about the positional patch -/

theorem getField_applyUpdates_not_mem (upd : List (String × BVal)) (d : Doc)
    (k : String) (h : k ∉ upd.map Prod.fst) :
    getField (applyUpdates d upd) k = getField d k := by
  induction upd generalizing d with
  | nil => rfl
  | cons a tl ih =>
    rw [List.map_cons, List.mem_cons] at h
    push_neg at h
    rw [applyUpdates, List.foldl_cons]
    have step := ih (setField d a.1 a.2) h.2
    rw [applyUpdates] at step
    rw [step, getField_setField_ne d a.1 a.2 k h.1]

theorem getField_applyUpdates_mem (upd : List (String × BVal)) (d : Doc)
    (k : String) (v : BVal) (hnd : (upd.map Prod.fst).Nodup)
    (h : (k, v) ∈ upd) :
    getField (applyUpdates d upd) k = some v := by
  induction upd generalizing d with
  | nil => simp at h
  | cons a tl ih =>
    rw [List.map_cons, List.nodup_cons] at hnd
    rw [applyUpdates, List.foldl_cons]
    rcases List.mem_cons.mp h with rfl | htl
    · have hnot : k ∉ tl.map Prod.fst := hnd.1
      have step := getField_applyUpdates_not_mem tl (setField d k v) k hnot
      rw [applyUpdates] at step
      rw [step, getField_setField_self]
    · exact ih (setField d a.1 a.2) hnd.2 htl

theorem pyGetOr_congr (d1 d2 : Doc)
    (h1 : getField d1 "_id" = getField d2 "_id")
    (h2 : getField d1 "id" = getField d2 "id") : pyGetOr d1 = pyGetOr d2 := by
  rw [pyGetOr, pyGetOr, h1, h2]

theorem matchStr_applyUpdates (upd : List (String × BVal)) (d : Doc)
    (iid : String) (h1 : "_id" ∉ upd.map Prod.fst)
    (h2 : "id" ∉ upd.map Prod.fst) :
    matchStr iid (applyUpdates d upd) = matchStr iid d := by
  have hg : pyGetOr (applyUpdates d upd) = pyGetOr d :=
    pyGetOr_congr _ _ (getField_applyUpdates_not_mem upd d "_id" h1)
      (getField_applyUpdates_not_mem upd d "id" h2)
  rw [matchStr, matchStr, itemIdStr, itemIdStr, hg]

theorem patchNth_length (upd : List (String × BVal)) (l : List Doc) (i : Nat) :
    (patchNth upd l i).length = l.length := by
  induction l generalizing i with
  | nil => rfl
  | cons a tl ih =>
    cases i with
    | zero => rfl
    | succ n => simp [patchNth, ih n]

theorem patchNth_get_ne (upd : List (String × BVal)) (l : List Doc)
    (i j : Nat) (h : j ≠ i) : (patchNth upd l i).get? j = l.get? j := by
  induction l generalizing i j with
  | nil => rfl
  | cons a tl ih =>
    cases i with
    | zero =>
      cases j with
      | zero => exact absurd rfl h
      | succ m => rfl
    | succ n =>
      cases j with
      | zero => rfl
      | succ m => simpa [patchNth] using ih n m (fun hc => h (by rw [hc]))

theorem patchNth_get_self (upd : List (String × BVal)) (l : List Doc)
    (i : Nat) : (patchNth upd l i).get? i =
      (l.get? i).map (fun d => applyUpdates d upd) := by
  induction l generalizing i with
  | nil => rfl
  | cons a tl ih =>
    cases i with
    | zero => rfl
    | succ n => simpa [patchNth] using ih n

/-! ## Lemmas about the positional item search -/

theorem findItemIdx_some (iid : String) (l : List Doc) (i : Nat) (d : Doc)
    (h : findItemIdx iid l = some (i, d)) :
    l.get? i = some d ∧ matchStr iid d = true ∧
      ∀ j, j < i → ∃ e, l.get? j = some e ∧ matchStr iid e = false := by
  induction l generalizing i with
  | nil => simp [findItemIdx] at h
  | cons a tl ih =>
    rw [findItemIdx] at h
    by_cases ha : matchStr iid a = true
    · rw [if_pos ha] at h
      injection h with h'
      injection h' with hi hd
      subst hi
      subst hd
      exact ⟨rfl, ha, fun j hj => absurd hj (Nat.not_lt_zero j)⟩
    · rw [if_neg ha] at h
      cases hrec : findItemIdx iid tl with
      | none => rw [hrec] at h; simp at h
      | some ix =>
        rw [hrec] at h
        have h' : (ix.1 + 1, ix.2) = (i, d) := Option.some.inj h
        obtain ⟨hi, hd⟩ : ix.1 + 1 = i ∧ ix.2 = d := by
          constructor
          · exact congrArg Prod.fst h'
          · exact congrArg Prod.snd h'
        subst hd
        obtain ⟨hget, hmatch, hpre⟩ := ih ix.1 (by rw [hrec])
        subst hi
        refine ⟨by simpa using hget, hmatch, ?_⟩
        intro j hj
        cases j with
        | zero =>
          exact ⟨a, rfl, by simpa using ha⟩
        | succ m =>
          obtain ⟨e, he, hem⟩ := hpre m (Nat.lt_of_succ_lt_succ hj)
          exact ⟨e, by simpa using he, hem⟩

theorem findItemIdx_none (iid : String) (l : List Doc)
    (h : findItemIdx iid l = none) : ∀ e ∈ l, matchStr iid e = false := by
  induction l with
  | nil => intro e he; simp at he
  | cons a tl ih =>
    rw [findItemIdx] at h
    by_cases ha : matchStr iid a = true
    · rw [if_pos ha] at h; simp at h
    · rw [if_neg ha] at h
      intro e he
      rcases List.mem_cons.mp he with rfl | hetl
      · simpa using ha
      · cases hrec : findItemIdx iid tl with
        | none => exact ih hrec e hetl
        | some ix => rw [hrec] at h; simp at h

theorem find?_of_prefix_no_match (q : Doc → Bool) (l : List Doc) (i : Nat)
    (x : Doc)
    (hpre : ∀ j, j < i → ∃ e, l.get? j = some e ∧ q e = false)
    (hx : l.get? i = some x) (hqx : q x = true) : l.find? q = some x := by
  induction l generalizing i with
  | nil => simp at hx
  | cons a tl ih =>
    cases i with
    | zero =>
      simp only [List.get?_cons_zero, Option.some.injEq] at hx
      subst hx
      exact List.find?_cons_of_pos _ hqx
    | succ n =>
      obtain ⟨e, he, hqe⟩ := hpre 0 (Nat.succ_pos n)
      simp only [List.get?_cons_zero, Option.some.injEq] at he
      subst he
      rw [List.find?_cons_of_neg _ (by simp [hqe])]
      exact ih n (fun j hj => by
        obtain ⟨e2, he2, hqe2⟩ := hpre (j + 1) (Nat.succ_lt_succ hj)
        exact ⟨e2, by simpa using he2, hqe2⟩) (by simpa using hx)

/-! ## Claim C1: section deletion detaches items, then removes the section -/

/-- C1: for every portfolio and every section in it (as stored by
`create_section`, with its `id` field holding the id string), the
delete-section operation clears the `section_id` field of every item whose
`section_id` string-equals the requested id — leaving all other fields of
that item and all other items untouched, and deleting no item — and removes
the section, so that a subsequent `list_sections` call excludes it. -/
theorem delete_section_detaches_and_removes (p : Portfolio) (sid : String)
    (s0 : Doc) (hmem : s0 ∈ p.sections)
    (hsid : getField s0 "id" = some (.bstr sid)) :
    (delete_section p sid).items.length = p.items.length ∧
    (∀ i it, p.items.get? i = some it →
      ∃ it2, (delete_section p sid).items.get? i = some it2 ∧
        (getField it "section_id" = some (.bstr sid) →
          getField it2 "section_id" = none ∧
          ∀ k, k ≠ "section_id" → getField it2 k = getField it k) ∧
        (getField it "section_id" ≠ some (.bstr sid) → it2 = it)) ∧
    s0 ∉ list_sections (delete_section p sid) ∧
    (∀ s, s ∈ list_sections (delete_section p sid) ↔
      s ∈ list_sections p ∧ getField s "id" ≠ some (.bstr sid)) := by
  refine ⟨by simp [delete_section], ?_, ?_, ?_⟩
  · intro i it hit
    refine ⟨if getField it "section_id" == some (.bstr sid)
            then unsetField it "section_id" else it, ?_, ?_, ?_⟩
    · simp only [delete_section, List.get?_map, hit, Option.map_some']
    · intro hc
      rw [if_pos (beq_iff_eq.mpr hc)]
      exact ⟨getField_unsetField_self it "section_id",
        fun k hk => getField_unsetField_ne it "section_id" k hk⟩
    · intro hc
      rw [if_neg (fun hb => hc (beq_iff_eq.mp hb))]
  · intro hcon
    simp only [list_sections, delete_section, List.mem_filter] at hcon
    rw [hsid] at hcon
    simp at hcon
  · intro s
    simp only [list_sections, delete_section, List.mem_filter]
    constructor
    · intro ⟨h1, h2⟩
      refine ⟨h1, fun hc => ?_⟩
      rw [hc] at h2
      simp at h2
    · intro ⟨h1, h2⟩
      refine ⟨h1, ?_⟩
      simp only [Bool.not_eq_true']
      exact beq_eq_false_iff_ne.mpr h2

/-- Witness for C1 at a concrete portfolio: one section created with id
string `"aaaaaaaaaaaaaaaaaaaaaaaa"` and one item attached to it. -/
theorem delete_section_detaches_and_removes_witness :
    ([("id", BVal.bstr "aaaaaaaaaaaaaaaaaaaaaaaa"), ("title", BVal.bstr "Work")] : Doc)
        ∈ (⟨[[("id", BVal.bstr "bbbbbbbbbbbbbbbbbbbbbbbb"),
              ("section_id", BVal.bstr "aaaaaaaaaaaaaaaaaaaaaaaa")]],
            [[("id", BVal.bstr "aaaaaaaaaaaaaaaaaaaaaaaa"), ("title", BVal.bstr "Work")]],
            none⟩ : Portfolio).sections ∧
    ([("id", BVal.bstr "aaaaaaaaaaaaaaaaaaaaaaaa"), ("title", BVal.bstr "Work")] : Doc)
        ∉ list_sections (delete_section
            ⟨[[("id", BVal.bstr "bbbbbbbbbbbbbbbbbbbbbbbb"),
               ("section_id", BVal.bstr "aaaaaaaaaaaaaaaaaaaaaaaa")]],
             [[("id", BVal.bstr "aaaaaaaaaaaaaaaaaaaaaaaa"), ("title", BVal.bstr "Work")]],
             none⟩ "aaaaaaaaaaaaaaaaaaaaaaaa") ∧
    (delete_section
        ⟨[[("id", BVal.bstr "bbbbbbbbbbbbbbbbbbbbbbbb"),
           ("section_id", BVal.bstr "aaaaaaaaaaaaaaaaaaaaaaaa")]],
         [[("id", BVal.bstr "aaaaaaaaaaaaaaaaaaaaaaaa"), ("title", BVal.bstr "Work")]],
         none⟩ "aaaaaaaaaaaaaaaaaaaaaaaa").items.length = 1 := by
  have h := delete_section_detaches_and_removes
    ⟨[[("id", BVal.bstr "bbbbbbbbbbbbbbbbbbbbbbbb"),
       ("section_id", BVal.bstr "aaaaaaaaaaaaaaaaaaaaaaaa")]],
     [[("id", BVal.bstr "aaaaaaaaaaaaaaaaaaaaaaaa"), ("title", BVal.bstr "Work")]],
     none⟩ "aaaaaaaaaaaaaaaaaaaaaaaa"
    [("id", BVal.bstr "aaaaaaaaaaaaaaaaaaaaaaaa"), ("title", BVal.bstr "Work")]
    (by decide) (by decide)
  exact ⟨by decide, h.2.2.1, h.1⟩

/-! ## Claim C2: insert/remove of a child item vs. the parent timestamp -/

/-- C2 (divergence): neither `create_portfolio_item` nor
`delete_portfolio_item` issues any write to the portfolio's `updated_at` —
the insert is a bare `$push` and the removal a bare `$pull` — so the
modification timestamp is left exactly as it was, contradicting the claimed
refresh-on-child-mutation invariant (a gap §9 of the spec itself flags). -/
theorem child_mutations_never_touch_updated_at :
    (∀ (p : Portfolio) (d : Doc),
       (create_portfolio_item p d).updatedAt = p.updatedAt) ∧
    (∀ (p : Portfolio) (iid : String) (out : Portfolio × Doc × Nat),
       delete_portfolio_item p iid = .ok out →
         out.1.updatedAt = p.updatedAt) := by
  refine ⟨fun p d => rfl, fun p iid out h => ?_⟩
  cases hfind : p.items.find? (matchStr iid) with
  | none =>
    simp only [delete_portfolio_item, hfind] at h
    exact absurd h (by simp)
  | some d0 =>
    simp only [delete_portfolio_item, hfind] at h
    by_cases hlen : (p.items.filter (fun it => !pullMatch iid it)).length ≥
        p.items.length
    · rw [if_pos hlen] at h
      exact absurd h (by simp)
    · rw [if_neg hlen] at h
      have h2 := Except.ok.inj h
      have h3 := congrArg Prod.fst h2
      rw [← h3]

/-- Witness for C2: a concrete push leaves `updatedAt = some 5`, and a
concrete successful item deletion also leaves `updatedAt = some 5`. -/
theorem child_mutations_never_touch_updated_at_witness :
    (create_portfolio_item ⟨[], [], some 5⟩
       [("id", BVal.bstr "cccccccccccccccccccccccc")]).updatedAt = some 5 ∧
    ((⟨[], [], some 5⟩ : Portfolio),
      ([("id", BVal.bstr "aaaaaaaaaaaaaaaaaaaaaaaa")] : Doc),
      1).1.updatedAt = some 5 := by
  refine ⟨child_mutations_never_touch_updated_at.1 ⟨[], [], some 5⟩ _, ?_⟩
  exact child_mutations_never_touch_updated_at.2
    ⟨[[("id", BVal.bstr "aaaaaaaaaaaaaaaaaaaaaaaa")]], [], some 5⟩
    "aaaaaaaaaaaaaaaaaaaaaaaa"
    (⟨[], [], some 5⟩, [("id", BVal.bstr "aaaaaaaaaaaaaaaaaaaaaaaa")], 1)
    (by decide)

/-! ## Claim C10: successful item deletion strictly decreases the count -/

/-- C10: whenever `delete_portfolio_item` reports success, the stored item
count strictly decreased and the reported `items_removed` is exactly the
difference; and when the located item's `$pull` removes nothing, the
handler returns the 500 deletion-failed error instead of success. -/
theorem delete_item_success_iff_count_decreased :
    (∀ (p : Portfolio) (iid : String) (p2 : Portfolio) (d : Doc) (n : Nat),
       delete_portfolio_item p iid = .ok (p2, d, n) →
         p2.items.length < p.items.length ∧
         n = p.items.length - p2.items.length) ∧
    (∀ (p : Portfolio) (iid : String),
       (p.items.find? (matchStr iid)).isSome = true →
       (p.items.filter (fun it => !pullMatch iid it)).length =
         p.items.length →
       delete_portfolio_item p iid = .error .deletionFailed) := by
  constructor
  · intro p iid p2 d n h
    cases hfind : p.items.find? (matchStr iid) with
    | none =>
      simp only [delete_portfolio_item, hfind] at h
      exact absurd h (by simp)
    | some d0 =>
      simp only [delete_portfolio_item, hfind] at h
      by_cases hlen : (p.items.filter (fun it => !pullMatch iid it)).length ≥
          p.items.length
      · rw [if_pos hlen] at h
        exact absurd h (by simp)
      · rw [if_neg hlen] at h
        have h2 := Except.ok.inj h
        have hp2 : p2.items = p.items.filter (fun it => !pullMatch iid it) :=
          (congrArg (fun q : Portfolio × Doc × Nat => q.1.items) h2).symm
        have hn : n = p.items.length -
            (p.items.filter (fun it => !pullMatch iid it)).length :=
          (congrArg (fun q : Portfolio × Doc × Nat => q.2.2) h2).symm
        rw [hp2, hn]
        exact ⟨Nat.lt_of_not_le (fun hc => hlen hc), rfl⟩
  · intro p iid hs hl
    cases hfind : p.items.find? (matchStr iid) with
    | none => rw [hfind] at hs; simp at hs
    | some d0 =>
      simp only [delete_portfolio_item, hfind]
      rw [if_pos (Nat.le_of_eq hl.symm)]

/-- Witness for C10: deleting the only item of a concrete portfolio
succeeds, reports one removed item, and the count went from 1 to 0. -/
theorem delete_item_success_iff_count_decreased_witness :
    ((⟨[], [], none⟩ : Portfolio).items.length < 1 ∧
      1 = 1 - (⟨[], [], none⟩ : Portfolio).items.length) := by
  have h := delete_item_success_iff_count_decreased.1
    ⟨[[("id", BVal.bstr "aaaaaaaaaaaaaaaaaaaaaaaa")]], [], none⟩
    "aaaaaaaaaaaaaaaaaaaaaaaa" ⟨[], [], none⟩
    [("id", BVal.bstr "aaaaaaaaaaaaaaaaaaaaaaaa")] 1 (by decide)
  exact h

/-! ## Claim C4: positional partial update with exact frame -/

/-- C4: for a portfolio containing an item that matches the requested id and
a partial-update map whose keys are distinct and do not touch the identifier
fields, the patch writes each submitted key at the item's positional array
index and leaves every other field of that item, every sibling item, and the
sections untouched; the returned value is the item re-fetched and re-located
after the write, whose patched fields reflect exactly the submitted
key/value pairs and no others. An id with no positional match yields the
item-not-found error. -/
theorem update_item_patches_positionally (p : Portfolio) (iid : String)
    (upd : List (String × BVal)) (hvalid : isValidOid iid = true)
    (hid1 : "_id" ∉ upd.map Prod.fst) (hid2 : "id" ∉ upd.map Prod.fst)
    (hnd : (upd.map Prod.fst).Nodup) :
    (findItemIdx iid p.items = none →
      update_portfolio_item p iid upd = .error .itemNotFound) ∧
    (∀ i old, findItemIdx iid p.items = some (i, old) →
      ∃ p2, update_portfolio_item p iid upd = .ok (p2, applyUpdates old upd) ∧
        p2.items.length = p.items.length ∧
        p2.sections = p.sections ∧ p2.updatedAt = p.updatedAt ∧
        (∀ j, j ≠ i → p2.items.get? j = p.items.get? j) ∧
        p2.items.get? i = some (applyUpdates old upd) ∧
        (∀ k v, (k, v) ∈ upd → getField (applyUpdates old upd) k = some v) ∧
        (∀ k, k ∉ upd.map Prod.fst →
          getField (applyUpdates old upd) k = getField old k)) := by
  constructor
  · intro hnone
    simp only [update_portfolio_item, hnone]
  · intro i old hfind
    obtain ⟨hget, hmatch, hpre⟩ := findItemIdx_some iid p.items i old hfind
    have hgeti : (patchNth upd p.items i).get? i = some (applyUpdates old upd) := by
      rw [patchNth_get_self, hget, Option.map_some']
    have hrefind : (patchNth upd p.items i).find? (matchStr iid) =
        some (applyUpdates old upd) := by
      apply find?_of_prefix_no_match (matchStr iid) _ i
      · intro j hj
        obtain ⟨e, he, hem⟩ := hpre j hj
        exact ⟨e, by rw [patchNth_get_ne upd p.items i j (Nat.ne_of_lt hj)]
                     exact he, hem⟩
      · exact hgeti
      · rw [matchStr_applyUpdates upd old iid hid1 hid2]
        exact hmatch
    refine ⟨{ p with items := patchNth upd p.items i }, ?_, ?_, rfl, rfl,
      ?_, hgeti, ?_, ?_⟩
    · simp only [update_portfolio_item, hfind, hrefind]
    · exact patchNth_length upd p.items i
    · exact fun j hj => patchNth_get_ne upd p.items i j hj
    · exact fun k v hkv => getField_applyUpdates_mem upd old k v hnd hkv
    · exact fun k hk => getField_applyUpdates_not_mem upd old k hk

/-- Witness for C4: patching the `title` of the second of two items at a
concrete portfolio touches exactly that field of that item. -/
theorem update_item_patches_positionally_witness :
    ∃ p2, update_portfolio_item
        ⟨[[("id", BVal.bstr "aaaaaaaaaaaaaaaaaaaaaaaa"), ("title", BVal.bstr "A")],
          [("id", BVal.bstr "bbbbbbbbbbbbbbbbbbbbbbbb"), ("title", BVal.bstr "B")]],
         [], none⟩ "bbbbbbbbbbbbbbbbbbbbbbbb" [("title", BVal.bstr "B2")] =
      .ok (p2, applyUpdates
        [("id", BVal.bstr "bbbbbbbbbbbbbbbbbbbbbbbb"), ("title", BVal.bstr "B")]
        [("title", BVal.bstr "B2")]) ∧
      p2.items.length = 2 ∧
      (∀ j, j ≠ 1 → p2.items.get? j =
        ([[("id", BVal.bstr "aaaaaaaaaaaaaaaaaaaaaaaa"), ("title", BVal.bstr "A")],
          [("id", BVal.bstr "bbbbbbbbbbbbbbbbbbbbbbbb"), ("title", BVal.bstr "B")]] : List Doc).get? j) := by
  obtain ⟨p2, h1, h2, _, _, h5, _, _, _⟩ :=
    (update_item_patches_positionally
      ⟨[[("id", BVal.bstr "aaaaaaaaaaaaaaaaaaaaaaaa"), ("title", BVal.bstr "A")],
        [("id", BVal.bstr "bbbbbbbbbbbbbbbbbbbbbbbb"), ("title", BVal.bstr "B")]],
       [], none⟩ "bbbbbbbbbbbbbbbbbbbbbbbb" [("title", BVal.bstr "B2")]
      (by decide) (by decide) (by decide) (by decide)).2 1
      [("id", BVal.bstr "bbbbbbbbbbbbbbbbbbbbbbbb"), ("title", BVal.bstr "B")]
      (by decide)
  exact ⟨p2, h1, h2, h5⟩

/-! ## Claim C3: the three-tier locator -/

theorem beqOid_eq_beq_some_oid (raw : String) (g : Option BVal) :
    beqOid g (resolveOid raw) = (g == some (BVal.oid (resolveOid raw))) := by
  rw [Bool.eq_iff_iff]
  cases g with
  | none => simp [beqOid]
  | some w => cases w <;> simp [beqOid]

theorem findMatch_eq_specMatch (raw : String) (it : Doc)
    (hrep : singleIdRep it = true) :
    findMatch raw it = specMatch raw it := by
  cases h1 : getField it "_id" with
  | none =>
    have hg : pyGetOr it = getField it "id" := by rw [pyGetOr, h1]
    rw [findMatch, specMatch, hg, h1, beqOid_eq_beq_some_oid]
    simp
  | some v =>
    by_cases htr : truthy v = true
    · have hg : pyGetOr it = some v := by simp [pyGetOr, h1, htr]
      have hid : getField it "id" = none := by
        simp [singleIdRep, h1, htr, Option.isNone_iff_eq_none] at hrep
        exact hrep
      rw [findMatch, specMatch, hg, h1, hid, beqOid_eq_beq_some_oid]
      simp
    · have hg : pyGetOr it = getField it "id" := by
        simp [pyGetOr, h1, htr]
      have hA : ((some v : Option BVal) ==
          some (BVal.oid (resolveOid raw))) = false := by
        rw [Bool.eq_false_iff]
        intro hc
        have hv := Option.some.inj (beq_iff_eq.mp hc)
        rw [hv] at htr
        exact htr rfl
      rw [findMatch, specMatch, hg, h1, hA, beqOid_eq_beq_some_oid]
      simp

theorem find?_congr_on (l : List Doc) (q1 q2 : Doc → Bool)
    (h : ∀ x ∈ l, q1 x = q2 x) : l.find? q1 = l.find? q2 := by
  induction l with
  | nil => rfl
  | cons a tl ih =>
    have ha := h a (List.mem_cons_self a tl)
    by_cases hq : q1 a = true
    · rw [List.find?_cons_of_pos _ hq, List.find?_cons_of_pos _ (by rw [← ha]; exact hq)]
    · rw [List.find?_cons_of_neg _ hq,
          List.find?_cons_of_neg _ (by rw [← ha]; exact hq)]
      exact ih (fun x hx => h x (List.mem_cons_of_mem a hx))

/-- C3: for items that populate a single identifier field (which is all the
system ever writes), the code's locator coincides with the spec's ordered
three-tier comparison — canonical `_id` exact match, alternate `id` exact
match, string rendering of the populated field against the raw string — the
first matching item in stored array order winning, and it reports not-found
exactly when no item matches under any of the three comparisons. -/
theorem find_item_by_id_refines_spec (p : Portfolio) (raw : String)
    (hvalid : isValidOid raw = true)
    (hrep : ∀ it ∈ p.items, singleIdRep it = true) :
    find_item_by_id p raw = specFind p raw ∧
    (find_item_by_id p raw = none ↔
      ∀ it ∈ p.items, specMatch raw it = false) := by
  have heq : find_item_by_id p raw = specFind p raw := by
    rw [find_item_by_id, specFind]
    exact find?_congr_on p.items _ _
      (fun x hx => findMatch_eq_specMatch raw x (hrep x hx))
  refine ⟨heq, ?_⟩
  rw [heq, specFind]
  constructor
  · intro h it hit
    exact Bool.eq_false_iff.mpr (List.find?_eq_none.mp h it hit)
  · intro h
    exact List.find?_eq_none.mpr (fun x hx => by rw [h x hx]; simp)

/-- Witness for C3: an item stored under the legacy alternate `id` field
only is still located, and agrees with the spec locator, at its
canonical-equivalent string. -/
theorem find_item_by_id_refines_spec_witness :
    find_item_by_id ⟨[[("id", BVal.bstr "abcdefabcdefabcdefabcdef")]], [], none⟩
        "abcdefabcdefabcdefabcdef" =
      specFind ⟨[[("id", BVal.bstr "abcdefabcdefabcdefabcdef")]], [], none⟩
        "abcdefabcdefabcdefabcdef" ∧
    find_item_by_id ⟨[[("id", BVal.bstr "abcdefabcdefabcdefabcdef")]], [], none⟩
        "abcdefabcdefabcdefabcdef" =
      some [("id", BVal.bstr "abcdefabcdefabcdefabcdef")] := by
  refine ⟨(find_item_by_id_refines_spec
    ⟨[[("id", BVal.bstr "abcdefabcdefabcdefabcdef")]], [], none⟩
    "abcdefabcdefabcdefabcdef" (by decide) (by decide)).1, by decide⟩

/-! ## Claim C5: two-phase item removal -/

theorem length_filter_lt_of_mem {α : Type} (l : List α) (q : α → Bool)
    (x : α) (hx : x ∈ l) (hqx : q x = false) :
    (l.filter q).length < l.length := by
  induction l with
  | nil => simp at hx
  | cons a tl ih =>
    rw [List.filter_cons]
    rcases List.mem_cons.mp hx with rfl | hxtl
    · rw [if_neg (by simp [hqx])]
      exact Nat.lt_succ_of_le (List.length_filter_le q tl)
    · by_cases hqa : q a = true
      · rw [if_pos hqa]
        simpa using Nat.succ_lt_succ (ih hxtl)
      · rw [if_neg hqa]
        exact Nat.lt_succ_of_lt (ih hxtl)

theorem findMatch_of_canonical (h : String) (it : Doc)
    (hp : getField it "_id" = some (.oid (resolveOid h))) :
    findMatch h it = true := by
  have hg : pyGetOr it = some (.oid (resolveOid h)) := by
    simp [pyGetOr, hp, truthy]
  rw [findMatch, hg]
  simp [beqOid]

theorem findMatch_of_legacy (h : String) (it : Doc) (hrep : wellRep it = true)
    (hp : getField it "id" = some (.bstr h)) : findMatch h it = true := by
  have hid : getField it "_id" = none := by
    cases hidv : getField it "_id" with
    | none => rfl
    | some v =>
      exfalso
      simp only [wellRep, hidv, hp] at hrep
      cases v <;> simp at hrep
  have hg : pyGetOr it = some (.bstr h) := by simp [pyGetOr, hid, hp]
  rw [findMatch, hg]
  simp [pyStrOpt]

theorem isValidOid_ne_None (h : String) (hv : isValidOid h = true) :
    h ≠ "None" := by
  intro hc
  rw [hc] at hv
  exact absurd hv (by decide)

theorem findMatch_cases (h : String) (it : Doc) (hv : isValidOid h = true)
    (hrep : wellRep it = true) (hm : findMatch h it = true) :
    getField it "_id" = some (.oid (resolveOid h)) ∨
    getField it "id" = some (.bstr h) := by
  cases hid : getField it "_id" with
  | some v =>
    cases hidf : getField it "id" with
    | some w =>
      exfalso
      simp only [wellRep, hid, hidf] at hrep
      cases v <;> cases w <;> simp at hrep
    | none =>
      cases v with
      | oid s =>
        left
        simp only [wellRep, hid, hidf, Bool.and_eq_true, beq_iff_eq] at hrep
        obtain ⟨hsv, hsl⟩ := hrep
        have hg : pyGetOr it = some (.oid s) := by simp [pyGetOr, hid, truthy]
        rw [findMatch, hg] at hm
        simp [beqOid, pyStrOpt] at hm
        rcases hm with hC | hC
        · rw [hC]
        · have hres : resolveOid h = h := by
            rw [resolveOid, ← hC]
            exact hsl
          rw [hC, hres]
      | bstr s => exfalso; simp [wellRep, hid, hidf] at hrep
      | int n => exfalso; simp [wellRep, hid, hidf] at hrep
      | null => exfalso; simp [wellRep, hid, hidf] at hrep
  | none =>
    cases hidf : getField it "id" with
    | none =>
      exfalso
      have hg : pyGetOr it = none := by simp [pyGetOr, hid, hidf]
      rw [findMatch, hg] at hm
      simp [beqOid, pyStrOpt] at hm
      exact isValidOid_ne_None h hv hm.symm
    | some w =>
      cases w with
      | bstr t =>
        right
        have hg : pyGetOr it = some (.bstr t) := by simp [pyGetOr, hid, hidf]
        rw [findMatch, hg] at hm
        simp [beqOid, pyStrOpt] at hm
        rw [hm]
      | oid s => exfalso; simp [wellRep, hid, hidf] at hrep
      | int n => exfalso; simp [wellRep, hid, hidf] at hrep
      | null => exfalso; simp [wellRep, hid, hidf] at hrep

/-- C5: over the identifier representations the system persists (canonical
`_id` ObjectId or legacy string `id`), with at most one item matching the
requested id: removing an existing item reports `true` and a subsequent
locate returns none; removing an id with no matching item reports `false`
and leaves the portfolio unchanged; and the reported boolean is exactly
whether any array element was removed. -/
theorem remove_item_consistent (p : Portfolio) (h : String)
    (hv : isValidOid h = true)
    (hrep : ∀ it ∈ p.items, wellRep it = true)
    (huniq : ∀ a ∈ p.items, ∀ b ∈ p.items,
      findMatch h a = true → findMatch h b = true → a = b) :
    ((find_item_by_id p h).isSome = true →
      (remove_item_from_portfolio p h).2 = true ∧
      find_item_by_id (remove_item_from_portfolio p h).1 h = none) ∧
    (find_item_by_id p h = none →
      (remove_item_from_portfolio p h).2 = false ∧
      (remove_item_from_portfolio p h).1 = p) ∧
    ((remove_item_from_portfolio p h).2 = true ↔
      (remove_item_from_portfolio p h).1.items.length < p.items.length) := by
  by_cases hex : ∃ x ∈ p.items,
      (getField x "_id" == some (BVal.oid (resolveOid h))) = true
  · obtain ⟨x, hx, hx1⟩ := hex
    have hx1' : getField x "_id" = some (.oid (resolveOid h)) :=
      beq_iff_eq.mp hx1
    have hlt : (p.items.filter (fun it =>
        !(getField it "_id" == some (.oid (resolveOid h))))).length <
        p.items.length :=
      length_filter_lt_of_mem _ _ x hx (by simp [hx1'])
    rw [remove_item_from_portfolio, if_pos hlt]
    refine ⟨?_, ?_, ?_⟩
    · intro _
      refine ⟨rfl, ?_⟩
      rw [find_item_by_id]
      apply List.find?_eq_none.mpr
      intro z hz
      rw [List.mem_filter] at hz
      obtain ⟨hzmem, hzf⟩ := hz
      intro hzm
      have hxm : findMatch h x = true := findMatch_of_canonical h x hx1'
      have hzx := huniq z hzmem x hx hzm hxm
      rw [hzx] at hzf
      simp [hx1'] at hzf
    · intro hnone
      exfalso
      rw [find_item_by_id, List.find?_eq_none] at hnone
      exact hnone x hx (findMatch_of_canonical h x hx1')
    · exact ⟨fun _ => hlt, fun _ => rfl⟩
  · push_neg at hex
    have hfalse : ∀ a ∈ p.items,
        (getField a "_id" == some (BVal.oid (resolveOid h))) = false :=
      fun a ha => Bool.eq_false_iff.mpr (hex a ha)
    have hfe : p.items.filter (fun it =>
        !(getField it "_id" == some (.oid (resolveOid h)))) = p.items :=
      List.filter_eq_self.mpr (fun a ha => by rw [hfalse a ha]; rfl)
    have hnlt : ¬ (p.items.filter (fun it =>
        !(getField it "_id" == some (.oid (resolveOid h))))).length <
        p.items.length := by
      rw [hfe]
      exact Nat.lt_irrefl _
    rw [remove_item_from_portfolio, if_neg hnlt]
    refine ⟨?_, ?_, ?_⟩
    · intro hs
      obtain ⟨y, hy⟩ := Option.isSome_iff_exists.mp hs
      have hymem : y ∈ p.items := List.mem_of_find?_eq_some hy
      have hym : findMatch h y = true := List.find?_some hy
      rcases findMatch_cases h y hv (hrep y hymem) hym with hc1 | hc2
      · exact absurd (beq_iff_eq.mpr hc1) (hex y hymem)
      · have hlt2 : (p.items.filter (fun it =>
            !(getField it "id" == some (.bstr h)))).length <
            p.items.length :=
          length_filter_lt_of_mem _ _ y hymem (by simp [hc2])
        refine ⟨decide_eq_true hlt2, ?_⟩
        rw [find_item_by_id]
        apply List.find?_eq_none.mpr
        intro z hz hzm
        rw [List.mem_filter] at hz
        obtain ⟨hzmem, hzf⟩ := hz
        have hzy := huniq z hzmem y hymem hzm hym
        rw [hzy] at hzf
        simp [hc2] at hzf
    · intro hnone
      rw [find_item_by_id, List.find?_eq_none] at hnone
      have hfe2 : p.items.filter (fun it =>
          !(getField it "id" == some (.bstr h))) = p.items := by
        apply List.filter_eq_self.mpr
        intro a ha
        by_cases hc : getField a "id" = some (.bstr h)
        · exact absurd (findMatch_of_legacy h a (hrep a ha) hc) (hnone a ha)
        · simp [hc]
      constructor
      · simp [hfe2]
      · show ({ p with items := p.items.filter (fun it =>
          !(getField it "id" == some (.bstr h))) } : Portfolio) = p
        rw [hfe2]
    · constructor
      · intro h2
        exact of_decide_eq_true h2
      · intro hlt2
        exact decide_eq_true hlt2

/-- Witness for C5: removing a legacy-representation item from a concrete
portfolio succeeds and a subsequent locate misses; removing from a
portfolio without any match reports `false` and changes nothing. -/
theorem remove_item_consistent_witness :
    ((remove_item_from_portfolio
        ⟨[[("id", BVal.bstr "abcdefabcdefabcdefabcdef")]], [], none⟩
        "abcdefabcdefabcdefabcdef").2 = true ∧
      find_item_by_id (remove_item_from_portfolio
        ⟨[[("id", BVal.bstr "abcdefabcdefabcdefabcdef")]], [], none⟩
        "abcdefabcdefabcdefabcdef").1 "abcdefabcdefabcdefabcdef" = none) ∧
    ((remove_item_from_portfolio (⟨[], [], some 3⟩ : Portfolio)
        "abcdefabcdefabcdefabcdef").2 = false ∧
      (remove_item_from_portfolio (⟨[], [], some 3⟩ : Portfolio)
        "abcdefabcdefabcdefabcdef").1 = ⟨[], [], some 3⟩) := by
  constructor
  · exact (remove_item_consistent
      ⟨[[("id", BVal.bstr "abcdefabcdefabcdefabcdef")]], [], none⟩
      "abcdefabcdefabcdefabcdef" (by decide) (by decide) (by decide)).1
      (by decide)
  · exact (remove_item_consistent (⟨[], [], some 3⟩ : Portfolio)
      "abcdefabcdefabcdefabcdef" (by decide) (by decide) (by decide)).2.1
      (by decide)

/-! ## Claim C6: the size ceiling -/

/-- C6: for an upload whose declared content type passes the per-kind
allow-list, the pipeline fails with the payload-too-large error exactly when
the buffered content length exceeds the kind-specific ceiling (10 MiB for
images, 50 MiB for videos); at the ceiling it succeeds. -/
theorem upload_payload_too_large_iff (env : UploadEnv)
    (origName contentType : String) (ft : FileType) (size : Nat)
    (uuid : String)
    (himg : ft = .image → contentType ∈ ALLOWED_IMAGES)
    (hvid : ft = .video → contentType ∈ ALLOWED_VIDEOS) :
    (upload_file env origName contentType ft size uuid =
      .error .payloadTooLarge) ↔ size > maxSizeFor ft := by
  cases ft with
  | image =>
    have hmem := himg rfl
    rw [upload_file]
    rw [if_neg (by intro hc; exact hc.2 hmem)]
    rw [if_neg (by intro hc; exact FileType.noConfusion hc.1)]
    by_cases hsz : size > MAX_IMAGE_SIZE
    · rw [if_pos ⟨rfl, hsz⟩]
      simpa [maxSizeFor] using hsz
    · rw [if_neg (fun hc => hsz hc.2)]
      rw [if_neg (by intro hc; exact FileType.noConfusion hc.1)]
      constructor
      · intro hc
        exact absurd hc (by simp)
      · intro hc
        exact absurd hc (by simpa [maxSizeFor] using hsz)
  | video =>
    have hmem := hvid rfl
    rw [upload_file]
    rw [if_neg (by intro hc; exact FileType.noConfusion hc.1)]
    rw [if_neg (by intro hc; exact hc.2 hmem)]
    rw [if_neg (by intro hc; exact FileType.noConfusion hc.1)]
    by_cases hsz : size > MAX_VIDEO_SIZE
    · rw [if_pos ⟨rfl, hsz⟩]
      simpa [maxSizeFor] using hsz
    · rw [if_neg (fun hc => hsz hc.2)]
      constructor
      · intro hc
        exact absurd hc (by simp)
      · intro hc
        exact absurd hc (by simpa [maxSizeFor] using hsz)

/-- Witness for C6: a PNG image of exactly 10 MiB passes size validation
while one byte more fails with the payload-too-large error. -/
theorem upload_payload_too_large_iff_witness :
    upload_file ⟨none, none, ⟨false, none, fun _ => FFOutcome.raised, false⟩⟩
        "p.png" "image/png" .image (10 * 1024 * 1024 + 1) "u" =
      .error .payloadTooLarge ∧
    ¬ (upload_file ⟨none, none, ⟨false, none, fun _ => FFOutcome.raised, false⟩⟩
        "p.png" "image/png" .image (10 * 1024 * 1024) "u" =
      .error .payloadTooLarge) ∧
    (upload_file ⟨none, none, ⟨false, none, fun _ => FFOutcome.raised, false⟩⟩
        "p.png" "image/png" .image (10 * 1024 * 1024) "u").isOk = true := by
  refine ⟨?_, ?_, by decide⟩
  · exact (upload_payload_too_large_iff
      ⟨none, none, ⟨false, none, fun _ => FFOutcome.raised, false⟩⟩
      "p.png" "image/png" .image (10 * 1024 * 1024 + 1) "u"
      (fun _ => by decide) (fun hc => FileType.noConfusion hc)).mpr (by decide)
  · intro hc
    have := (upload_payload_too_large_iff
      ⟨none, none, ⟨false, none, fun _ => FFOutcome.raised, false⟩⟩
      "p.png" "image/png" .image (10 * 1024 * 1024) "u"
      (fun _ => by decide) (fun hc2 => FileType.noConfusion hc2)).mp hc
    exact absurd this (by decide)

/-! ## Claim C7: probe failure degrades the result, never the upload -/

/-- C7: a video upload (allowed type, within the size ceiling) whose
metadata and thumbnail probes all fail still succeeds, returning the stored
filename and URL with `metadata.duration` absent, `metadata.dimensions`
absent, and no thumbnail. -/
theorem video_upload_survives_probe_failure (env : UploadEnv)
    (origName contentType : String) (size : Nat) (uuid : String)
    (hct : contentType ∈ ALLOWED_VIDEOS) (hsz : size ≤ MAX_VIDEO_SIZE)
    (hvp : env.videoProbe = none)
    (hpd : env.thumb.probeDuration = none)
    (hff : env.thumb.ffmpegAt 0 ≠ .success)
    (hcv : env.thumb.opencvOk = false) :
    upload_file env origName contentType .video size uuid =
      .ok { filename := uuid ++ "." ++ fileExtension origName,
            originalName := origName,
            url := "/uploads/" ++ (uuid ++ "." ++ fileExtension origName),
            thumbnailUrl := none,
            metadata := { size := size, dimensions := none, duration := none,
                          format := formatOf contentType } } := by
  have hthumb : generate_video_thumbnail env.thumb
      (uuid ++ "." ++ fileExtension origName) = none := by
    rw [generate_video_thumbnail]
    cases hve : env.thumb.videoExists with
    | false => rfl
    | true =>
      rw [hpd]
      simp only [Bool.not_true, if_false, Bool.false_eq_true]
      cases hf0 : env.thumb.ffmpegAt 0 with
      | success => exact absurd hf0 hff
      | emptyFile => rw [hcv]; rfl
      | raised => rw [hcv]; rfl
  rw [upload_file]
  rw [if_neg (by intro hc; exact FileType.noConfusion hc.1)]
  rw [if_neg (by intro hc; exact hc.2 hct)]
  rw [if_neg (by intro hc; exact FileType.noConfusion hc.1)]
  rw [if_neg (fun hc => absurd hsz (Nat.not_le_of_lt hc.2))]
  simp only [if_pos rfl, hthumb, get_file_metadata, hvp]
  simp

/-- Witness for C7: a concrete 100-byte `video/mp4` upload whose probes all
fail still returns a populated filename/URL and a degraded metadata block. -/
theorem video_upload_survives_probe_failure_witness :
    upload_file ⟨none, none, ⟨true, none, fun _ => FFOutcome.raised, false⟩⟩
        "movie.mp4" "video/mp4" .video 100 "u1" =
      .ok { filename := "u1" ++ "." ++ fileExtension "movie.mp4",
            originalName := "movie.mp4",
            url := "/uploads/" ++ ("u1" ++ "." ++ fileExtension "movie.mp4"),
            thumbnailUrl := none,
            metadata := { size := 100, dimensions := none, duration := none,
                          format := formatOf "video/mp4" } } :=
  video_upload_survives_probe_failure
    ⟨none, none, ⟨true, none, fun _ => FFOutcome.raised, false⟩⟩
    "movie.mp4" "video/mp4" 100 "u1" (by decide) (by decide) rfl rfl
    (by decide) rfl

/-! ## Claim C8: thumbnail derivation fallbacks -/

/-- C8 counterexample: at a video whose two ffmpeg extraction attempts (at
`min(3.0, duration*0.1)` and at 0) both fail but whose OpenCV fallback
succeeds, the thumbnail is present — contradicting the claim that failure
of both sampling attempts leaves the thumbnail reference absent. -/
theorem thumbnail_both_attempts_fail_yet_present :
    ((⟨true, some 30, fun _ => FFOutcome.raised, true⟩ : ThumbEnv).ffmpegAt
        (min 3 (30 * (1 / 10))) = FFOutcome.raised) ∧
    ((⟨true, some 30, fun _ => FFOutcome.raised, true⟩ : ThumbEnv).ffmpegAt 0 =
        FFOutcome.raised) ∧
    generate_video_thumbnail
        (⟨true, some 30, fun _ => FFOutcome.raised, true⟩ : ThumbEnv)
        "v.mp4" = some (thumbUrl "v.mp4") := by
  refine ⟨rfl, rfl, ?_⟩
  rw [generate_video_thumbnail]
  rfl

/-- C8 amended: thumbnail derivation samples a single frame at
`min(3.0, duration * 0.1)` seconds scaled to the fixed output width; if that
invocation raises, it retries exactly once at timestamp 0; if neither ffmpeg
attempt succeeds (a raised or file-less attempt included), a final OpenCV
fallback decides the outcome, and only when it too fails is the thumbnail
absent — while the upload as a whole still succeeds either way, carrying
whatever the derivation returned. -/
theorem thumbnail_fallback_chain (env : ThumbEnv) (name : String) (d : ℚ)
    (hex : env.videoExists = true) (hpd : env.probeDuration = some d) :
    (env.ffmpegAt (min 3 (d * (1 / 10))) = .success →
      generate_video_thumbnail env name = some (thumbUrl name)) ∧
    (env.ffmpegAt (min 3 (d * (1 / 10))) = .raised →
      env.ffmpegAt 0 = .success →
      generate_video_thumbnail env name = some (thumbUrl name)) ∧
    (env.ffmpegAt (min 3 (d * (1 / 10))) ≠ .success →
      env.ffmpegAt 0 ≠ .success →
      generate_video_thumbnail env name =
        (if env.opencvOk then some (thumbUrl name) else none)) ∧
    (∀ (uenv : UploadEnv) (origName ct : String) (size : Nat) (uuid : String),
      ct ∈ ALLOWED_VIDEOS → size ≤ MAX_VIDEO_SIZE →
      ∃ r, upload_file uenv origName ct .video size uuid = .ok r ∧
        r.thumbnailUrl = generate_video_thumbnail uenv.thumb
          (uuid ++ "." ++ fileExtension origName)) := by
  have hbase : generate_video_thumbnail env name =
      (match env.ffmpegAt (min 3 (d * (1 / 10))) with
       | .success => some (thumbUrl name)
       | .emptyFile => if env.opencvOk then some (thumbUrl name) else none
       | .raised =>
         match env.ffmpegAt 0 with
         | .success => some (thumbUrl name)
         | _ => if env.opencvOk then some (thumbUrl name) else none) := by
    rw [generate_video_thumbnail, hex, hpd]
    rfl
  refine ⟨?_, ?_, ?_, ?_⟩
  · intro h1
    rw [hbase, h1]
  · intro h1 h0
    rw [hbase, h1, h0]
  · intro h1 h0
    rw [hbase]
    cases hf : env.ffmpegAt (min 3 (d * (1 / 10))) with
    | success => exact absurd hf h1
    | emptyFile => rfl
    | raised =>
      cases hf0 : env.ffmpegAt 0 with
      | success => exact absurd hf0 h0
      | emptyFile => rfl
      | raised => rfl
  · intro uenv origName ct size uuid hct hsz
    rw [upload_file]
    rw [if_neg (by intro hc; exact FileType.noConfusion hc.1)]
    rw [if_neg (by intro hc; exact hc.2 hct)]
    rw [if_neg (by intro hc; exact FileType.noConfusion hc.1)]
    rw [if_neg (fun hc => absurd hsz (Nat.not_le_of_lt hc.2))]
    exact ⟨_, rfl, by simp⟩

/-- Witness for C8 (amended): a successful first ffmpeg attempt yields the
thumbnail URL, and a concrete video upload carries the derivation result. -/
theorem thumbnail_fallback_chain_witness :
    generate_video_thumbnail
        (⟨true, some 30, fun _ => FFOutcome.success, false⟩ : ThumbEnv)
        "v.mp4" = some (thumbUrl "v.mp4") ∧
    (∃ r, upload_file ⟨none, none,
        ⟨true, some 30, fun _ => FFOutcome.success, false⟩⟩
        "m.mp4" "video/mp4" .video 7 "u9" = .ok r ∧
      r.thumbnailUrl = generate_video_thumbnail
        ⟨true, some 30, fun _ => FFOutcome.success, false⟩
        ("u9" ++ "." ++ fileExtension "m.mp4")) := by
  constructor
  · exact (thumbnail_fallback_chain
      ⟨true, some 30, fun _ => FFOutcome.success, false⟩ "v.mp4" 30
      rfl rfl).1 rfl
  · exact (thumbnail_fallback_chain
      ⟨true, some 30, fun _ => FFOutcome.success, false⟩ "v.mp4" 30
      rfl rfl).2.2.2 ⟨none, none,
        ⟨true, some 30, fun _ => FFOutcome.success, false⟩⟩
      "m.mp4" "video/mp4" 7 "u9" (by decide) (by decide)

/-! ## Claim C9: physical file cleanup -/

/-- C9 counterexample: in the portfolio-delete handler's inline cleanup,
whose single try/except wraps the whole loop, a raising deletion of the
first item's file aborts the remaining deletions — the second item's file
exists, is deletable, is among the computed paths, and yet is not removed —
and a `data:` inline thumbnail still yields an attempted deletion path. -/
theorem portfolio_cleanup_abort_cex :
    ("uploads/b.png" ∈
      ([⟨"a.mp4", some "data:image/png;base64,xyz"⟩, ⟨"b.png", none⟩] :
        List PItem).flatMap deletePortfolioPaths) ∧
    (("uploads/" ++ ("data:image/png;base64,xyz".replace "/uploads/" "")) ∈
      ([⟨"a.mp4", some "data:image/png;base64,xyz"⟩, ⟨"b.png", none⟩] :
        List PItem).flatMap deletePortfolioPaths) ∧
    ((⟨fun pa => pa == "uploads/a.mp4" || pa == "uploads/b.png",
       fun pa => pa == "uploads/a.mp4"⟩ : FS).pathExists "uploads/b.png"
      = true) ∧
    ((⟨fun pa => pa == "uploads/a.mp4" || pa == "uploads/b.png",
       fun pa => pa == "uploads/a.mp4"⟩ : FS).removeRaises "uploads/b.png"
      = false) ∧
    (delete_portfolio
      (⟨fun pa => pa == "uploads/a.mp4" || pa == "uploads/b.png",
        fun pa => pa == "uploads/a.mp4"⟩ : FS)
      [⟨"a.mp4", some "data:image/png;base64,xyz"⟩, ⟨"b.png", none⟩]).1
      = [] ∧
    (delete_portfolio
      (⟨fun pa => pa == "uploads/a.mp4" || pa == "uploads/b.png",
        fun pa => pa == "uploads/a.mp4"⟩ : FS)
      [⟨"a.mp4", some "data:image/png;base64,xyz"⟩, ⟨"b.png", none⟩]).2
      = true := by
  have hpaths : ([⟨"a.mp4", some "data:image/png;base64,xyz"⟩,
      ⟨"b.png", none⟩] : List PItem).flatMap deletePortfolioPaths =
      ["uploads/" ++ "a.mp4",
       "uploads/" ++ ("data:image/png;base64,xyz".replace "/uploads/" ""),
       "uploads/" ++ "b.png"] := rfl
  refine ⟨?_, ?_, by decide, by decide, ?_, rfl⟩
  · rw [hpaths]
    exact List.mem_cons_of_mem _ (List.mem_cons_of_mem _
      (List.mem_cons_self _ _))
  · rw [hpaths]
    exact List.mem_cons_of_mem _ (List.mem_cons_self _ _)
  · rw [delete_portfolio]
    rw [hpaths]
    rw [removeSeqAbort]
    rw [show (⟨fun pa => pa == "uploads/a.mp4" || pa == "uploads/b.png",
        fun pa => pa == "uploads/a.mp4"⟩ : FS).pathExists
        ("uploads/" ++ "a.mp4") = true from rfl]
    rw [show (⟨fun pa => pa == "uploads/a.mp4" || pa == "uploads/b.png",
        fun pa => pa == "uploads/a.mp4"⟩ : FS).removeRaises
        ("uploads/" ++ "a.mp4") = true from rfl]
    rfl

/-- C9 amended: item-level cleanup (`cleanup_item_files`) computes the main
file always and the thumbnail file only for stored-file (non-`data:`)
references, attempts every computed path with per-file error isolation, and
never raises; the portfolio-delete handler's inline cleanup instead wraps
its whole loop in a single handler, so the first raising deletion abandons
the remaining deletions — though it still never raises, and the portfolio
deletion proceeds regardless — and it derives a thumbnail path from any
non-empty thumbnail reference, inline `data:` URLs included. -/
theorem cleanup_isolation_and_inline_abort :
    (∀ it : PItem, it.filename ≠ "" →
      ("uploads/" ++ it.filename) ∈ filesToRemove it) ∧
    (∀ (it : PItem) (t : String), it.thumbnailUrl = some t →
      t.startsWith "data:" = true →
      ∀ pa ∈ filesToRemove it, pa = "uploads/" ++ it.filename) ∧
    (∀ (it : PItem) (t : String), it.thumbnailUrl = some t → t ≠ "" →
      t.startsWith "data:" = false →
      ("uploads/" ++ lastUrlComponent t) ∈ filesToRemove it) ∧
    (∀ (fs : FS) (it : PItem) (pa : String),
      pa ∈ cleanup_item_files fs it ↔
        pa ∈ filesToRemove it ∧ fs.pathExists pa = true ∧
          fs.removeRaises pa = false) ∧
    (∀ (fs : FS) (items : List PItem), (delete_portfolio fs items).2 = true) ∧
    (∀ (fs : FS) (pa : String) (ps : List String),
      fs.pathExists pa = true → fs.removeRaises pa = true →
      removeSeqAbort fs (pa :: ps) = []) ∧
    (∀ (it : PItem) (t : String), it.thumbnailUrl = some t → t ≠ "" →
      ("uploads/" ++ (t.replace "/uploads/" "")) ∈ deletePortfolioPaths it) := by
  refine ⟨?_, ?_, ?_, ?_, ?_, ?_, ?_⟩
  · intro it hne
    have he : it.filename.isEmpty = false := by
      rw [Bool.eq_false_iff]
      intro hc
      exact hne ((String.isEmpty_iff it.filename).mp hc)
    simp [filesToRemove, he]
  · intro it t ht hdata pa hpa
    simp only [filesToRemove, ht, hdata, Bool.not_true, Bool.and_false,
      Bool.false_eq_true, if_false, List.append_nil] at hpa
    by_cases he : it.filename.isEmpty = true
    · rw [he] at hpa
      simp at hpa
    · rw [Bool.not_eq_true] at he
      rw [he] at hpa
      simpa using hpa
  · intro it t ht hne hdata
    have he : t.isEmpty = false := by
      rw [Bool.eq_false_iff]
      intro hc
      exact hne ((String.isEmpty_iff t).mp hc)
    simp [filesToRemove, ht, he, hdata]
  · intro fs it pa
    rw [cleanup_item_files, tryRemoveEach]
    rw [List.mem_filter]
    simp [Bool.and_eq_true]
  · intro fs items
    rfl
  · intro fs pa ps h1 h2
    rw [removeSeqAbort, h1, h2]
    rfl
  · intro it t ht hne
    have he : t.isEmpty = false := by
      rw [Bool.eq_false_iff]
      intro hc
      exact hne ((String.isEmpty_iff t).mp hc)
    simp [deletePortfolioPaths, ht, he]

/-- Witness for C9 (amended): concrete per-item cleanup membership and a
concrete inline-abort run. -/
theorem cleanup_isolation_and_inline_abort_witness :
    ("uploads/a.mp4" ∈ filesToRemove ⟨"a.mp4", some "data:x"⟩) ∧
    removeSeqAbort
      (⟨fun pa => pa == "uploads/a.mp4", fun pa => pa == "uploads/a.mp4"⟩ : FS)
      ["uploads/a.mp4", "uploads/b.png"] = [] := by
  constructor
  · exact cleanup_isolation_and_inline_abort.1 ⟨"a.mp4", some "data:x"⟩
      (by decide)
  · exact cleanup_isolation_and_inline_abort.2.2.2.2.2.1
      ⟨fun pa => pa == "uploads/a.mp4", fun pa => pa == "uploads/a.mp4"⟩
      "uploads/a.mp4" ["uploads/b.png"] (by decide) (by decide)

end PortfolioApp
